import Mathlib

/-!
Verification of the request dispatch engine of an HTTP-to-CLI proxy.

The development shallowly embeds the core components — error taxonomy
(`errors.ts`), child-process runner (`claude-runner.ts`), worker pool
(`worker-pool.ts`) and session store (`session-store.ts`, both the
SQLite-backed and the in-memory revision) — and proves or refutes the
specification's claims about them.  External collaborators (JSON.parse,
SHA-256, the p-queue scheduler's counters) are modelled as parameters or
as the semantics their documentation and the repository's tests pin down.
-/

namespace Proxy

/-! ## String helpers mirroring JavaScript string methods -/

/-- Occurrence of `pat` as a contiguous run of `hay`, by structural scan. -/
def hasSub : List Char → List Char → Bool
  | hay, pat =>
    if pat.isPrefixOf hay then true
    else match hay with
      | [] => false
      | _ :: t => hasSub t pat

/-- JavaScript `String.prototype.includes`. -/
def strContains (s pat : String) : Bool :=
  hasSub s.data pat.data

/-- JavaScript `String.prototype.trim`: strip leading and trailing
whitespace. -/
def jsTrim (s : String) : String :=
  String.mk (((s.data.dropWhile Char.isWhitespace).reverse.dropWhile Char.isWhitespace).reverse)

/-- JavaScript `String.prototype.toLowerCase` on the ASCII range. -/
def jsToLower (s : String) : String :=
  String.mk (s.data.map Char.toLower)

/-- JavaScript `x || dflt` on an optional string: the empty string is falsy. -/
def jsOrString (o : Option String) (dflt : String) : String :=
  match o with
  | some s => if s = "" then dflt else s
  | none => dflt

/-! ## Error taxonomy (`src/lib/errors.ts`) -/

/-- The machine codes of `ErrorCodes` in `errors.ts`. -/
inductive ErrorCode where
  | AUTH_ERROR
  | TIMEOUT
  | CLI_ERROR
  | CLI_NOT_FOUND
  | RATE_LIMIT
  | UPSTREAM_AUTH_ERROR
  | INVALID_REQUEST
  | INTERNAL_ERROR
  | QUEUE_FULL
  | QUEUE_TIMEOUT
  | SESSION_NOT_FOUND
  | SESSION_LIMIT_REACHED
  | STREAMING_NOT_SUPPORTED
  | MEMORY_ERROR
  | TASK_NOT_FOUND
  | INVALID_MODEL
deriving DecidableEq, Repr

/-- The ad-hoc `details` objects attached to errors, modelled structurally. -/
inductive ErrDetails where
  | noDetails
  | reason (r : String)
  | exitInfo (exitCode : Option Int) (signal : Option String) (stderr : String)
  | memoryInfo (exitCode : Option Int) (stderr : String) (hint : String)
  | parseInfo (parseError : String) (rawOutput : String)
deriving DecidableEq, Repr

/-- `ApiError` from `errors.ts`: HTTP status, machine code, message, details. -/
structure ApiError where
  statusCode : Nat
  code : ErrorCode
  message : String
  details : ErrDetails := .noDetails
deriving DecidableEq, Repr

/-- The error factories of `errors.ts` (`Errors.…`), one definition each. -/
def Errors.authInvalid : ApiError :=
  ⟨401, .AUTH_ERROR, "Invalid API key", .noDetails⟩

def Errors.timeoutErr (timeoutMs : Nat) : ApiError :=
  ⟨504, .TIMEOUT, "Request timed out after " ++ toString timeoutMs ++ "ms", .noDetails⟩

def Errors.cliNotFound : ApiError :=
  ⟨500, .CLI_NOT_FOUND, "Claude CLI not found. Ensure claude is installed and in PATH.", .noDetails⟩

def Errors.cliError (message : String) (details : ErrDetails) : ApiError :=
  ⟨500, .CLI_ERROR, message, details⟩

def Errors.rateLimit : ApiError :=
  ⟨429, .RATE_LIMIT, "Rate limit exceeded. Please try again later.", .noDetails⟩

def Errors.upstreamAuthError : ApiError :=
  ⟨401, .UPSTREAM_AUTH_ERROR, "Claude authentication failed. Run \"claude login\" to authenticate.", .noDetails⟩

def Errors.invalidRequest (message : String) : ApiError :=
  ⟨400, .INVALID_REQUEST, message, .noDetails⟩

def Errors.queueFull (maxSize : Nat) : ApiError :=
  ⟨429, .QUEUE_FULL, "Server is at capacity. Maximum queue size (" ++ toString maxSize ++ ") reached.", .noDetails⟩

def Errors.queueTimeout (timeoutMs : Nat) : ApiError :=
  ⟨504, .QUEUE_TIMEOUT, "Request waited too long in queue (" ++ toString timeoutMs ++ "ms)", .noDetails⟩

def Errors.sessionNotFound (sessionId : String) : ApiError :=
  ⟨404, .SESSION_NOT_FOUND, "Session not found: " ++ sessionId, .noDetails⟩

def Errors.sessionLimitReached (limit : Nat) : ApiError :=
  ⟨429, .SESSION_LIMIT_REACHED, "Maximum sessions per API key (" ++ toString limit ++ ") reached. Delete an existing session first.", .noDetails⟩

def Errors.memoryError (exitCode : Option Int) (stderr : String) : ApiError :=
  ⟨500, .MEMORY_ERROR, "Claude CLI ran out of memory",
    .memoryInfo exitCode stderr "Session may be too large. Try starting a new session."⟩

/-- A thrown JavaScript error: either an `ApiError` or a plain `Error`
carrying only a message (e.g. node network errors). -/
inductive JsError where
  | api (e : ApiError)
  | generic (message : String)
deriving DecidableEq, Repr

/-- `isRetryableError` from `errors.ts`. -/
def isRetryableError (error : JsError) : Bool :=
  match error with
  | .api e => e.code = .TIMEOUT || e.code = .RATE_LIMIT
  | .generic message => strContains message "ECONNRESET"

/-! ## JSON values and JavaScript coercions

`JSON.parse` itself is a host builtin; the runner is parameterised over a
`parse : String → Option Json` oracle (`none` models a parse exception). -/

inductive Json where
  | null
  | bool (b : Bool)
  | num (n : Int)
  | str (s : String)
  | arr (xs : List Json)
  | obj (fields : List (String × Json))

/-- Property access `v.k`: defined on objects, `undefined` (`none`) otherwise. -/
def Json.getProp (j : Json) (k : String) : Option Json :=
  match j with
  | .obj fields =>
    match fields.find? (fun p => p.1 = k) with
    | some p => some p.2
    | none => none
  | _ => none

/-- JavaScript truthiness of a JSON value. -/
def Json.truthy (j : Json) : Bool :=
  match j with
  | .null => false
  | .bool b => b
  | .num n => n != 0
  | .str s => s != ""
  | .arr _ => true
  | .obj _ => true

/-- Truthiness of a possibly-`undefined` value (`undefined` is falsy). -/
def jsTruthy (o : Option Json) : Bool :=
  match o with
  | some j => j.truthy
  | none => false

/-- String rendering of a JSON value where JS would coerce. -/
def Json.render (j : Json) : String :=
  match j with
  | .null => "null"
  | .bool b => toString b
  | .num n => toString n
  | .str s => s
  | .arr _ => "[array]"
  | .obj _ => "[object Object]"

/-- JavaScript `x || dflt` on a possibly-`undefined` value, rendered. -/
def jsOrRender (o : Option Json) (dflt : String) : String :=
  match o with
  | some j => if j.truthy then j.render else dflt
  | none => dflt

/-! ## Runner (`src/lib/claude-runner.ts`, the revision with
`--dangerously-skip-permissions`, memory classification and `maxTurns`) -/

/-- `ClaudeRunOptions` (`src/types/index.ts`), the fields the runner reads.
The `abortSignal` and `onChunk` handles live in the event model, not here. -/
structure ClaudeRunOptions where
  prompt : String
  model : Option String := none
  allowedTools : Option (List String) := none
  workingDirectory : Option String := none
  resumeSessionId : Option String := none
  maxTurns : Option Int := none
  stream : Bool := false
deriving DecidableEq, Repr

/-- `ClaudeRunResult` (`src/types/index.ts`). -/
structure ClaudeRunResult where
  result : String
  sessionId : Option String
  rawOutput : String
  model : String
deriving DecidableEq, Repr

/-- The configuration fields the runner reads. -/
structure RunnerConfig where
  defaultModel : String
  defaultWorkspaceDir : Option String := none
deriving DecidableEq, Repr

/-- `(model || config.defaultModel).toLowerCase()` from `runClaude`. -/
def effectiveModel (opts : ClaudeRunOptions) (config : RunnerConfig) : String :=
  jsToLower (jsOrString opts.model config.defaultModel)

/-- The argv assembled by `runClaude` before spawning the CLI, translated
push by push from the source. -/
def runClaudeArgs (opts : ClaudeRunOptions) (config : RunnerConfig) : List String :=
  let outputFormat := if opts.stream then "stream-json" else "json"
  let args := ["-p", opts.prompt, "--output-format", outputFormat, "--dangerously-skip-permissions"]
  let args := args ++ ["--model", effectiveModel opts config]
  let args := args ++
    (match opts.allowedTools with
     | some tools => if tools.length > 0 then ["--allowedTools", String.intercalate "," tools] else []
     | none => [])
  let args := args ++
    (match opts.resumeSessionId with
     | some sid => if sid != "" then ["--resume", sid] else []
     | none => [])
  let args := args ++
    (match opts.maxTurns with
     | some n => if n != 0 && n > 0 then ["--max-turns", toString n] else []
     | none => [])
  args

/-- The body of the `try` block in `parseClaudeOutput`: throws (`Except.error`)
when `parsed.is_error` is truthy, else extracts `result` and `session_id`.
`session_id` is taken when it is a JSON string (the CLI emits strings). -/
def parseTryBlock (parsed : Json) (trimmed eff : String) : Except String ClaudeRunResult :=
  if jsTruthy (parsed.getProp "is_error") then
    .error (jsOrRender (parsed.getProp "result") "Claude returned an error")
  else
    let result := jsOrRender (parsed.getProp "result") ""
    let sessionId :=
      match parsed.getProp "session_id" with
      | some (.str s) => some s
      | _ => none
    .ok { result := result, sessionId := sessionId, rawOutput := trimmed, model := eff }

/-- `parseClaudeOutput`: trims stdout, throws on empty output, and otherwise
runs the `try` block; the function's own `catch` turns any throw from the
`try` block — a `JSON.parse` failure or the `is_error` throw — into the
plain-text fallback result. -/
def parseClaudeOutput (parse : String → Option Json) (output eff : String) :
    Except String ClaudeRunResult :=
  let trimmed := jsTrim output
  if trimmed = "" then
    .error "Empty output from Claude CLI"
  else
    let fallback : ClaudeRunResult :=
      { result := trimmed, sessionId := none, rawOutput := trimmed, model := eff }
    match parse trimmed with
    | none => .ok fallback
    | some parsed =>
      match parseTryBlock parsed trimmed eff with
      | .error _ => .ok fallback
      | .ok r => .ok r

/-- Template-literal rendering of the nullable exit code. -/
def jsCodeRender (code : Option Int) : String :=
  match code with
  | some c => toString c
  | none => "null"

/-- The stderr scan of the `close` handler for a non-zero exit code. -/
def classifyNonZeroExit (code : Option Int) (signal : Option String) (stderr : String) : ApiError :=
  let stderrLower := jsToLower stderr
  if strContains stderrLower "rate limit" || strContains stderrLower "too many requests" then
    Errors.rateLimit
  else if strContains stderrLower "authentication" || strContains stderrLower "not logged in"
      || strContains stderrLower "login" then
    Errors.upstreamAuthError
  else if ["out of memory", "heap limit", "allocation failed"].any
      (fun pattern => strContains stderrLower pattern) then
    Errors.memoryError code (jsTrim stderr)
  else
    Errors.cliError ("Claude CLI exited with code " ++ jsCodeRender code)
      (.exitInfo code signal (jsTrim stderr))

/-- The `close` handler of `runClaude`: abort and timeout kills first, then
exit-code classification, then stdout parsing with its parse-failure wrapper. -/
def closeHandler (parse : String → Option Json) (aborted killed : Bool) (timeoutMs : Nat)
    (code : Option Int) (signal : Option String) (stdout stderr eff : String) :
    Except ApiError ClaudeRunResult :=
  if aborted then
    .error (Errors.cliError "Request was aborted" (.reason "client_disconnect"))
  else if killed then
    .error (Errors.timeoutErr timeoutMs)
  else if code != some 0 then
    .error (classifyNonZeroExit code signal stderr)
  else
    match parseClaudeOutput parse stdout eff with
    | .ok r => .ok r
    | .error msg =>
      .error (Errors.cliError "Failed to parse Claude CLI output" (.parseInfo msg (stdout.take 500)))

/-! ## Worker pool retry policy (`src/lib/worker-pool.ts`, `WorkerPool.submit`)

`executeWithQueue` is abstracted as `run : Nat → Except JsError ClaudeRunResult`
giving the outcome of the attempt with that index; `abortedAt i` (resp.
`abortedInSleep i`) tells whether the abort signal has fired when attempt `i`
is about to start (resp. during the sleep that follows it).  Jitter is the
already-rounded perturbation `Math.round(base * 0.15 * (2r - 1))` in
milliseconds, so its magnitude is at most 15% of the base delay. -/

/-- `RETRY_MAX_ATTEMPTS` in `worker-pool.ts`. -/
def RETRY_MAX_ATTEMPTS : Nat := 3

/-- `RETRY_DELAYS` in `worker-pool.ts`. -/
def RETRY_DELAYS : List Int := [1000, 2000, 4000]

/-- `RETRY_DELAYS[attempt] ?? RETRY_DELAYS[RETRY_DELAYS.length - 1]`. -/
def retryBaseDelay (attempt : Nat) : Int :=
  RETRY_DELAYS.getD attempt (RETRY_DELAYS.getD (RETRY_DELAYS.length - 1) 0)

/-- Observable trace of one `submit` call: its outcome, how many
`executeWithQueue` attempts ran, and the backoff sleeps performed (ms). -/
structure SubmitTrace where
  result : Except JsError ClaudeRunResult
  attemptCount : Nat
  sleeps : List Int
deriving Repr

/-- The `for (let attempt = 0; …)` retry loop of `submit`, starting at
`attempt` with `fuel` iterations left and `lastError` carried over.  The
`fuel = 0` exit corresponds to the `throw lastError` after the loop, which is
unreachable for `RETRY_MAX_ATTEMPTS > 0` because the last iteration rethrows. -/
def retryLoop (run : Nat → Except JsError ClaudeRunResult)
    (abortedAt abortedInSleep : Nat → Bool) (jitter : Nat → Int) :
    Nat → Nat → Option JsError → SubmitTrace
  | _, 0, lastError =>
    { result := .error (lastError.getD (.api (Errors.cliError "unreachable" .noDetails))),
      attemptCount := 0, sleeps := [] }
  | attempt, fuel + 1, _ =>
    if abortedAt attempt then
      { result := .error (.api (Errors.cliError "Request was aborted" .noDetails)),
        attemptCount := 0, sleeps := [] }
    else
      match run attempt with
      | .ok r => { result := .ok r, attemptCount := 1, sleeps := [] }
      | .error e =>
        if !isRetryableError e || attempt ≥ RETRY_MAX_ATTEMPTS - 1 then
          { result := .error e, attemptCount := 1, sleeps := [] }
        else
          let delay := retryBaseDelay attempt + jitter attempt
          if abortedInSleep attempt then
            { result := .error (.api (Errors.cliError "Request was aborted during retry" .noDetails)),
              attemptCount := 1, sleeps := [] }
          else
            let rest := retryLoop run abortedAt abortedInSleep jitter (attempt + 1) fuel (some e)
            { result := rest.result, attemptCount := rest.attemptCount + 1,
              sleeps := delay :: rest.sleeps }

/-- `WorkerPool.submit`: refuse during shutdown, run streaming submissions
through a single `executeWithQueue` call, and retry non-streaming ones. -/
def submit (shuttingDown stream : Bool) (run : Nat → Except JsError ClaudeRunResult)
    (abortedAt abortedInSleep : Nat → Bool) (jitter : Nat → Int) : SubmitTrace :=
  if shuttingDown then
    { result := .error (.api (Errors.cliError "Server is shutting down" (.reason "shutdown"))),
      attemptCount := 0, sleeps := [] }
  else if stream then
    { result := run 0, attemptCount := 1, sleeps := [] }
  else
    retryLoop run abortedAt abortedInSleep jitter 0 RETRY_MAX_ATTEMPTS none

/-! ## Worker pool admission (`WorkerPool.executeWithQueue` over p-queue)

p-queue's counters — pinned by the repository's own worker-pool tests
("Task 2: goes into queue (pending=1, size=1)") — are `pending` = tasks
currently running and `size` = tasks waiting, with an added task starting
immediately when a concurrency slot is free.  `executeWithQueue` rejects with
`queue_full` when `queue.size >= maxQueueSize` before adding. -/

structure PoolConfig where
  workerConcurrency : Nat
  maxQueueSize : Nat
deriving DecidableEq, Repr

/-- Pool counters: `running` is p-queue `pending`, `waiting` is p-queue `size`. -/
structure PoolState where
  running : Nat
  waiting : Nat
deriving DecidableEq, Repr

/-- `isHealthy`: `queue.size < maxQueueSize * 0.9`, on the waiting count. -/
def poolHealthy (config : PoolConfig) (st : PoolState) : Prop :=
  (st.waiting : ℚ) < (config.maxQueueSize : ℚ) * (9 / 10)

inductive PoolEvent where
  | submitReq
  | complete
deriving DecidableEq, Repr

/-- One pool transition: a submission is admitted or rejected per
`executeWithQueue`; a completion frees a slot and promotes a waiter. -/
def poolStep (config : PoolConfig) (st : PoolState) : PoolEvent → PoolState × Option ApiError
  | .submitReq =>
    if st.waiting ≥ config.maxQueueSize then
      (st, some (Errors.queueFull config.maxQueueSize))
    else if st.running < config.workerConcurrency then
      ({ running := st.running + 1, waiting := st.waiting }, none)
    else
      ({ running := st.running, waiting := st.waiting + 1 }, none)
  | .complete =>
    if st.running = 0 then
      (st, none)
    else if st.waiting > 0 then
      ({ running := st.running, waiting := st.waiting - 1 }, none)
    else
      ({ running := st.running - 1, waiting := st.waiting }, none)

/-- Run the pool from the idle state over a list of events. -/
def poolRun (config : PoolConfig) (events : List PoolEvent) : PoolState :=
  events.foldl (fun st e => (poolStep config st e).1) { running := 0, waiting := 0 }

/-! ## Session store (`src/lib/session-store.ts`)

Both revisions are embedded: the SQLite-backed one (rows in a table, a
`sessionQueues` map whose mere presence marks the lock) and the in-memory one
(a `locked` flag on the session plus a separate waiter-queue map).  JavaScript
`Map`s become association lists; timestamps are epoch milliseconds (ISO-8601
strings compare lexicographically exactly as their timestamps compare
numerically for the dates at hand).  SHA-256 (`createHash` from node:crypto)
is a host builtin, so stores are parameterised by `hash : String → String`.

Callers are numbered; the ghost `holders` map records, per session ID, the
callers whose `acquireLock` has returned and whose matching `releaseLock` has
not yet run — the specification's notion of "holding" the lock. -/

abbrev Caller := Nat

/-- Association-list lookup mirroring `Map.get`. -/
def mapFind {β : Type} (m : List (String × β)) (k : String) : Option β :=
  match m with
  | [] => none
  | (k', v) :: rest => if k' = k then some v else mapFind rest k

/-- Association-list update mirroring `Map.set`. -/
def mapSet {β : Type} (m : List (String × β)) (k : String) (v : β) : List (String × β) :=
  match m with
  | [] => [(k, v)]
  | (k', v') :: rest => if k' = k then (k, v) :: rest else (k', v') :: mapSet rest k v

/-- Association-list removal mirroring `Map.delete`. -/
def mapDelete {β : Type} (m : List (String × β)) (k : String) : List (String × β) :=
  m.filter (fun p => p.1 ≠ k)

/-- A row of the `sessions` table (SQLite revision). -/
structure SessionRow where
  id : String
  claude_session_id : String
  api_key_hash : String
  created_at : Int
  last_accessed_at : Int
deriving DecidableEq, Repr

/-- `Session` as returned to callers by the SQLite revision. -/
structure Session where
  id : String
  claudeSessionId : String
  apiKeyHash : String
  createdAt : Int
  lastAccessedAt : Int
  locked : Bool
deriving DecidableEq, Repr

/-- SQLite-revision store state: the `sessions` table and the in-memory
`sessionQueues` map (presence of an entry marks the session as locked). -/
structure SqliteStore where
  rows : List SessionRow
  sessionQueues : List (String × List Caller)
deriving DecidableEq, Repr

/-- `SELECT * FROM sessions WHERE id = ?`. -/
def rowFind (rows : List SessionRow) (sessionId : String) : Option SessionRow :=
  rows.find? (fun r => r.id = sessionId)

/-- `rowToSession`: `locked` is derived from `sessionQueues.has(id)`. -/
def rowToSession (st : SqliteStore) (row : SessionRow) : Session :=
  { id := row.id, claudeSessionId := row.claude_session_id, apiKeyHash := row.api_key_hash,
    createdAt := row.created_at, lastAccessedAt := row.last_accessed_at,
    locked := (mapFind st.sessionQueues row.id).isSome }

/-- `getSession` (SQLite revision): fetch by ID, then validate ownership;
a missing row and a fingerprint mismatch both return `null`. -/
def getSession (hash : String → String) (st : SqliteStore) (sessionId apiKey : String) :
    Option Session :=
  match rowFind st.rows sessionId with
  | none => none
  | some row =>
    if row.api_key_hash ≠ hash apiKey then none
    else some (rowToSession st row)

/-- `cleanupExpiredSessions` (SQLite revision):
`DELETE FROM sessions WHERE last_accessed_at < now - sessionTtlMs`.
Only the table is touched; `sessionQueues` is not. -/
def cleanupExpiredSessionsSqlite (st : SqliteStore) (now ttlMs : Int) : SqliteStore :=
  let cutoff := now - ttlMs
  { st with rows := st.rows.filter (fun r => ¬ r.last_accessed_at < cutoff) }

/-- SQLite-revision lock system: the store plus the ghost `holders` map. -/
structure SqliteLockSystem where
  store : SqliteStore
  holders : List (String × List Caller)
deriving DecidableEq, Repr

/-- The callers currently holding the lock of `sessionId`. -/
def SqliteLockSystem.holdersOf (sys : SqliteLockSystem) (sessionId : String) : List Caller :=
  (mapFind sys.holders sessionId).getD []

/-- `acquireLock` (SQLite revision): throw `session_not_found` when the row is
absent; treat a missing **or empty** waiter queue as "not locked", set an
empty queue and return (the caller now holds); otherwise append the caller to
the queue and suspend. -/
def sqliteAcquire (sys : SqliteLockSystem) (c : Caller) (sessionId : String) :
    SqliteLockSystem × Option ApiError :=
  match rowFind sys.store.rows sessionId with
  | none => (sys, some (Errors.sessionNotFound sessionId))
  | some _ =>
    match mapFind sys.store.sessionQueues sessionId with
    | none =>
      ({ store := { sys.store with sessionQueues := mapSet sys.store.sessionQueues sessionId [] },
         holders := mapSet sys.holders sessionId (sys.holdersOf sessionId ++ [c]) }, none)
    | some queue =>
      if queue.length = 0 then
        ({ store := { sys.store with sessionQueues := mapSet sys.store.sessionQueues sessionId [] },
           holders := mapSet sys.holders sessionId (sys.holdersOf sessionId ++ [c]) }, none)
      else
        ({ sys with store := { sys.store with
             sessionQueues := mapSet sys.store.sessionQueues sessionId (queue ++ [c]) } }, none)

/-- `releaseLock` (SQLite revision), for a matching release (the releasing
caller holds the lock; the store itself never verifies this — the lock is
advisory).  Pop and signal the head waiter when the queue is non-empty,
otherwise delete the queue entry. -/
def sqliteRelease (sys : SqliteLockSystem) (c : Caller) (sessionId : String) : SqliteLockSystem :=
  if c ∈ sys.holdersOf sessionId then
    let holdersLess := (sys.holdersOf sessionId).erase c
    match mapFind sys.store.sessionQueues sessionId with
    | none => { sys with holders := mapSet sys.holders sessionId holdersLess }
    | some queue =>
      match queue with
      | next :: restQueue =>
        { store := { sys.store with
            sessionQueues := mapSet sys.store.sessionQueues sessionId restQueue },
          holders := mapSet sys.holders sessionId (holdersLess ++ [next]) }
      | [] =>
        { store := { sys.store with sessionQueues := mapDelete sys.store.sessionQueues sessionId },
          holders := mapSet sys.holders sessionId holdersLess }
  else
    sys

inductive LockEvent where
  | acquire (c : Caller) (sessionId : String)
  | release (c : Caller) (sessionId : String)
deriving DecidableEq, Repr

/-- Run the SQLite-revision lock system over a list of events. -/
def sqliteLockRun (sys : SqliteLockSystem) (events : List LockEvent) : SqliteLockSystem :=
  events.foldl
    (fun s e =>
      match e with
      | .acquire c sessionId => (sqliteAcquire s c sessionId).1
      | .release c sessionId => sqliteRelease s c sessionId)
    sys

/-- `Session` record of the in-memory revision (the `locked` flag is state). -/
structure MemSession where
  id : String
  claudeSessionId : String
  apiKeyHash : String
  createdAt : Int
  lastAccessedAt : Int
  locked : Bool
deriving DecidableEq, Repr

/-- In-memory revision store state: `sessions` and `sessionQueues` maps. -/
structure MemStore where
  sessions : List (String × MemSession)
  sessionQueues : List (String × List Caller)
deriving DecidableEq, Repr

/-- `cleanupExpiredSessions` (in-memory revision): collect the IDs with
`now - lastAccessedAt > ttl`, then delete both the queue entry and the
session for each. -/
def cleanupExpiredSessionsMem (st : MemStore) (now ttlMs : Int) : MemStore :=
  let expiredIds := (st.sessions.filter (fun p => now - p.2.lastAccessedAt > ttlMs)).map (fun p => p.1)
  { sessions := st.sessions.filter (fun p => ¬ now - p.2.lastAccessedAt > ttlMs),
    sessionQueues := st.sessionQueues.filter (fun q => ¬ q.1 ∈ expiredIds) }

/-- In-memory revision lock system with the ghost `holders` map. -/
structure MemLockSystem where
  store : MemStore
  holders : List (String × List Caller)
deriving DecidableEq, Repr

def MemLockSystem.holdersOf (sys : MemLockSystem) (sessionId : String) : List Caller :=
  (mapFind sys.holders sessionId).getD []

/-- Whether the in-memory revision considers `sessionId` locked. -/
def MemLockSystem.lockedOf (sys : MemLockSystem) (sessionId : String) : Bool :=
  match mapFind sys.store.sessions sessionId with
  | some s => s.locked
  | none => false

/-- `acquireLock` (in-memory revision): throw `session_not_found` when the
session is absent; if unlocked, set `locked` and return (the caller holds);
otherwise append the caller to the waiter queue and suspend. -/
def memAcquire (sys : MemLockSystem) (c : Caller) (sessionId : String) :
    MemLockSystem × Option ApiError :=
  match mapFind sys.store.sessions sessionId with
  | none => (sys, some (Errors.sessionNotFound sessionId))
  | some s =>
    if !s.locked then
      ({ store := { sys.store with
           sessions := mapSet sys.store.sessions sessionId { s with locked := true } },
         holders := mapSet sys.holders sessionId (sys.holdersOf sessionId ++ [c]) }, none)
    else
      let queue := (mapFind sys.store.sessionQueues sessionId).getD []
      ({ sys with store := { sys.store with
           sessionQueues := mapSet sys.store.sessionQueues sessionId (queue ++ [c]) } }, none)

/-- `releaseLock` (in-memory revision), for a matching release: return early
when the session is gone; otherwise pass the lock to the head waiter (deleting
the queue entry when it empties) or clear the `locked` flag. -/
def memRelease (sys : MemLockSystem) (c : Caller) (sessionId : String) : MemLockSystem :=
  if c ∈ sys.holdersOf sessionId then
    let holdersLess := (sys.holdersOf sessionId).erase c
    match mapFind sys.store.sessions sessionId with
    | none => { sys with holders := mapSet sys.holders sessionId holdersLess }
    | some s =>
      match mapFind sys.store.sessionQueues sessionId with
      | some (next :: restQueue) =>
        { store := { sys.store with
            sessionQueues :=
              if restQueue.length = 0 then mapDelete sys.store.sessionQueues sessionId
              else mapSet sys.store.sessionQueues sessionId restQueue },
          holders := mapSet sys.holders sessionId (holdersLess ++ [next]) }
      | _ =>
        { store := { sys.store with
            sessions := mapSet sys.store.sessions sessionId { s with locked := false } },
          holders := mapSet sys.holders sessionId holdersLess }
  else
    sys

/-- Run the in-memory revision lock system over a list of events. -/
def memLockRun (sys : MemLockSystem) (events : List LockEvent) : MemLockSystem :=
  events.foldl
    (fun s e =>
      match e with
      | .acquire c sessionId => (memAcquire s c sessionId).1
      | .release c sessionId => memRelease s c sessionId)
    sys

/-! ## Helper lemmas on the association-list maps -/

theorem mapFind_mapSet_same {β : Type} (m : List (String × β)) (k : String) (v : β) :
    mapFind (mapSet m k v) k = some v := by
  induction m with
  | nil => simp [mapSet, mapFind]
  | cons p rest ih =>
    obtain ⟨pk, pv⟩ := p
    by_cases h : pk = k
    · simp [mapSet, mapFind, h]
    · simp [mapSet, mapFind, h, ih]

theorem mapFind_mapSet_other {β : Type} (m : List (String × β)) (k k' : String) (v : β)
    (h : k' ≠ k) : mapFind (mapSet m k v) k' = mapFind m k' := by
  have hkk : ¬ k = k' := fun hk => h hk.symm
  induction m with
  | nil => simp [mapSet, mapFind, hkk]
  | cons p rest ih =>
    obtain ⟨pk, pv⟩ := p
    by_cases hp : pk = k
    · have hpk : ¬ pk = k' := by rw [hp]; exact hkk
      simp [mapSet, mapFind, hp, hpk, hkk]
    · by_cases hpk : pk = k'
      · simp [mapSet, mapFind, hp, hpk, h]
      · simp [mapSet, mapFind, hp, hpk, ih]

theorem mapFind_some_mem {β : Type} (m : List (String × β)) (k : String) (v : β)
    (h : mapFind m k = some v) : (k, v) ∈ m := by
  induction m with
  | nil => simp [mapFind] at h
  | cons p rest ih =>
    obtain ⟨pk, pv⟩ := p
    by_cases hp : pk = k
    · simp only [mapFind, hp, if_pos] at h
      cases h
      subst hp
      exact List.mem_cons_self _ _
    · simp only [mapFind, hp, if_neg, not_false_iff] at h
      exact List.mem_cons_of_mem _ (ih h)

theorem length_le_one_mem_eq {l : List Caller} {c : Caller}
    (hlen : l.length ≤ 1) (hmem : c ∈ l) : l = [c] := by
  match l, hmem with
  | [x], hmem =>
    simp only [List.mem_singleton] at hmem
    rw [hmem]
  | x :: y :: t, _ => simp at hlen

/-! ## Claim C1: session-lock mutual exclusion -/

/-- A store holding one session "s", unlocked, with no waiter queues. -/
def c1Row : SessionRow := ⟨"s", "claude-s", "h", 0, 0⟩

def c1Init : SqliteLockSystem := ⟨⟨[c1Row], []⟩, []⟩

/-- C1. The mutual-exclusion invariant fails on the SQLite-revision
`acquireLock`: with session "s" present and caller 1 already holding the
lock (the code marks this state by an existing *empty* waiter queue), a
second caller's `acquireLock` takes the `!queue || queue.length === 0`
branch, returns immediately instead of suspending, and both callers hold
the lock at once. -/
theorem c1_sqlite_acquire_double_hold :
    (sqliteLockRun c1Init [.acquire 1 "s", .acquire 2 "s"]).holdersOf "s" = [1, 2] ∧
    ((sqliteLockRun c1Init [.acquire 1 "s", .acquire 2 "s"]).holdersOf "s").length = 2 ∧
    (sqliteAcquire (sqliteLockRun c1Init [.acquire 1 "s"]) 2 "s").2 = none ∧
    mapFind (sqliteLockRun c1Init [.acquire 1 "s"]).store.sessionQueues "s" = some [] := by
  refine ⟨by decide, by decide, by decide, by decide⟩

/-! ## Claim C2: admission bound -/

/-- C2 as stated is false: with `concurrency = 1` and `maxQueueSize = 1`,
after one admitted submission we have `running + waiting = 1 = maxQueueSize`,
yet a second submission is admitted rather than rejected, reaching
`running + waiting = 2 > maxQueueSize`.  The check in `executeWithQueue`
bounds only the waiting count (`queue.size`). -/
theorem c2_admission_counterexample :
    (poolRun ⟨1, 1⟩ [.submitReq]).running + (poolRun ⟨1, 1⟩ [.submitReq]).waiting = 1 ∧
    (poolStep ⟨1, 1⟩ (poolRun ⟨1, 1⟩ [.submitReq]) .submitReq).2 = none ∧
    (poolStep ⟨1, 1⟩ (poolRun ⟨1, 1⟩ [.submitReq]) .submitReq).1.running +
      (poolStep ⟨1, 1⟩ (poolRun ⟨1, 1⟩ [.submitReq]) .submitReq).1.waiting = 2 := by
  refine ⟨by decide, by decide, by decide⟩

/-- The invariant the admission check actually maintains. -/
def poolInv (config : PoolConfig) (st : PoolState) : Prop :=
  st.waiting ≤ config.maxQueueSize ∧ st.running ≤ config.workerConcurrency

theorem poolStep_inv (config : PoolConfig) (st : PoolState) (e : PoolEvent)
    (h : poolInv config st) : poolInv config (poolStep config st e).1 := by
  obtain ⟨hw, hr⟩ := h
  cases e <;> simp only [poolStep] <;> split_ifs <;>
    first
      | exact ⟨hw, hr⟩
      | (constructor <;> simp <;> omega)

theorem poolRun_inv (config : PoolConfig) (events : List PoolEvent) :
    ∀ st : PoolState, poolInv config st →
      poolInv config (events.foldl (fun s e => (poolStep config s e).1) st) := by
  induction events with
  | nil => intro st h; exact h
  | cons e rest ih =>
    intro st h
    exact ih _ (poolStep_inv config st e h)

/-- C2 amended.  The pool's admission check bounds the *waiting* count, not
running + waiting: in every reachable state `waiting ≤ maxQueueSize` and
`running ≤ concurrency` (so outstanding work is at most their sum), and a
submission arriving with `waiting = maxQueueSize` is rejected with
`queue_full` and leaves the state unchanged. -/
theorem c2_admission_amended :
    (∀ (config : PoolConfig) (events : List PoolEvent),
       (poolRun config events).waiting ≤ config.maxQueueSize ∧
       (poolRun config events).running ≤ config.workerConcurrency) ∧
    (∀ (config : PoolConfig) (st : PoolState), st.waiting = config.maxQueueSize →
       poolStep config st .submitReq = (st, some (Errors.queueFull config.maxQueueSize))) := by
  constructor
  · intro config events
    exact poolRun_inv config events ⟨0, 0⟩ ⟨Nat.zero_le _, Nat.zero_le _⟩
  · intro config st h
    simp [poolStep, h]

/-- Witness for C2 amended at a concrete pool and trace. -/
theorem c2_admission_amended_witness :
    (poolRun ⟨2, 3⟩ [.submitReq, .submitReq, .submitReq, .complete]).waiting ≤ 3 ∧
    poolStep ⟨1, 1⟩ ⟨0, 1⟩ .submitReq = (⟨0, 1⟩, some (Errors.queueFull 1)) :=
  ⟨(c2_admission_amended.1 ⟨2, 3⟩ [.submitReq, .submitReq, .submitReq, .complete]).1,
   c2_admission_amended.2 ⟨1, 1⟩ ⟨0, 1⟩ rfl⟩

/-! ## Claim C3: stdout parse on zero exit with `is_error` -/

/-- The parsed object for stdout `{"result":"boom","is_error":true}`. -/
def c3Json : Json := .obj [("result", .str "boom"), ("is_error", .bool true)]

/-- The stdout text (braces escaped) and the `JSON.parse` oracle on it. -/
def c3Stdout : String := "\x7b\"result\":\"boom\",\"is_error\":true\x7d"

def c3Parse : String → Option Json := fun s => if s = c3Stdout then some c3Json else none

/-- C3 fails on the code: the `throw new Error(parsed.result)` for a truthy
`is_error` sits inside `parseClaudeOutput`'s own `try`, whose `catch` returns
the plain-text fallback.  On exit code 0 with stdout
`{"result":"boom","is_error":true}` the runner therefore resolves with a
successful `ClaudeRunResult` carrying the raw JSON text — no `cli_error` is
raised — even though the `try` block did throw `"boom"`. -/
theorem c3_is_error_swallowed :
    parseTryBlock c3Json c3Stdout "opus" = .error "boom" ∧
    parseClaudeOutput c3Parse c3Stdout "opus" =
      .ok { result := c3Stdout, sessionId := none, rawOutput := c3Stdout, model := "opus" } ∧
    closeHandler c3Parse false false 300000 (some 0) none c3Stdout "" "opus" =
      .ok { result := c3Stdout, sessionId := none, rawOutput := c3Stdout, model := "opus" } := by
  refine ⟨rfl, rfl, rfl⟩

/-! ## Claim C5: streaming bypasses retry -/

/-- C5.  A streaming submission (not during shutdown) makes exactly one
`executeWithQueue` attempt, propagates its outcome unchanged whatever it is,
and never sleeps. -/
theorem c5_stream_single_attempt (run : Nat → Except JsError ClaudeRunResult)
    (abortedAt abortedInSleep : Nat → Bool) (jitter : Nat → Int) :
    (submit false true run abortedAt abortedInSleep jitter).attemptCount = 1 ∧
    (submit false true run abortedAt abortedInSleep jitter).result = run 0 ∧
    (submit false true run abortedAt abortedInSleep jitter).sleeps = [] :=
  ⟨rfl, rfl, rfl⟩

/-! ## Claim C8: TTL sweep -/

/-- A store with one expired session "s" whose lock entry is present. -/
def c8Store : SqliteStore := ⟨[⟨"s", "claude-s", "h", 0, 0⟩], [("s", [])]⟩

/-- C8 as stated is false on the SQLite revision: sweeping at `now = 2000`
with `ttl = 1000` deletes the expired row for "s" (premise satisfied:
`last_accessed_at = 0 < now - ttl`), but the in-memory lock entry for "s"
survives — `cleanupExpiredSessions` only issues the SQL `DELETE`. -/
theorem c8_ttl_counterexample :
    (0 : Int) < 2000 - 1000 ∧
    rowFind (cleanupExpiredSessionsSqlite c8Store 2000 1000).rows "s" = none ∧
    mapFind (cleanupExpiredSessionsSqlite c8Store 2000 1000).sessionQueues "s" = some [] := by
  refine ⟨by decide, by decide, by decide⟩

/-! ## Claim C10: acquiring a lock requires the session to exist -/

/-- C10.  In both store revisions, `acquireLock` on a session ID with no
persisted record fails with `session_not_found` (404) and leaves the whole
state — in particular the lock table — unchanged. -/
theorem c10_acquire_requires_session (sys : SqliteLockSystem) (msys : MemLockSystem)
    (c c' : Caller) (sessionId : String) :
    (rowFind sys.store.rows sessionId = none →
       sqliteAcquire sys c sessionId = (sys, some (Errors.sessionNotFound sessionId))) ∧
    (mapFind msys.store.sessions sessionId = none →
       memAcquire msys c' sessionId = (msys, some (Errors.sessionNotFound sessionId))) := by
  constructor
  · intro h
    simp [sqliteAcquire, h]
  · intro h
    simp [memAcquire, h]

/-- Witness for C10 on empty stores. -/
theorem c10_acquire_requires_session_witness :
    sqliteAcquire ⟨⟨[], []⟩, []⟩ 7 "nope" = (⟨⟨[], []⟩, []⟩, some (Errors.sessionNotFound "nope")) ∧
    memAcquire ⟨⟨[], []⟩, []⟩ 8 "nope" = (⟨⟨[], []⟩, []⟩, some (Errors.sessionNotFound "nope")) :=
  ⟨(c10_acquire_requires_session ⟨⟨[], []⟩, []⟩ ⟨⟨[], []⟩, []⟩ 7 8 "nope").1 rfl,
   (c10_acquire_requires_session ⟨⟨[], []⟩, []⟩ ⟨⟨[], []⟩, []⟩ 7 8 "nope").2 rfl⟩

/-! ## Claim C6: stderr classification on non-zero exit -/

/-- C6.  For a child exit that was not aborted or killed and whose code is
not 0, the `close` handler rejects with the stderr classification, and that
classification scans the lowercased stderr in order: rate-limit patterns,
then authentication patterns, then memory patterns, then a `cli_error`
carrying the exit code, signal and trimmed stderr. -/
theorem c6_stderr_classification (parse : String → Option Json) (timeoutMs : Nat)
    (code : Option Int) (signal : Option String) (stdout stderr eff : String)
    (hcode : code ≠ some 0) :
    closeHandler parse false false timeoutMs code signal stdout stderr eff =
      .error (classifyNonZeroExit code signal stderr) ∧
    ((strContains (jsToLower stderr) "rate limit"
        || strContains (jsToLower stderr) "too many requests") = true →
      classifyNonZeroExit code signal stderr = Errors.rateLimit) ∧
    ((strContains (jsToLower stderr) "rate limit"
        || strContains (jsToLower stderr) "too many requests") = false →
     (strContains (jsToLower stderr) "authentication"
        || strContains (jsToLower stderr) "not logged in"
        || strContains (jsToLower stderr) "login") = true →
      classifyNonZeroExit code signal stderr = Errors.upstreamAuthError) ∧
    ((strContains (jsToLower stderr) "rate limit"
        || strContains (jsToLower stderr) "too many requests") = false →
     (strContains (jsToLower stderr) "authentication"
        || strContains (jsToLower stderr) "not logged in"
        || strContains (jsToLower stderr) "login") = false →
     (["out of memory", "heap limit", "allocation failed"].any
        (fun pattern => strContains (jsToLower stderr) pattern)) = true →
      classifyNonZeroExit code signal stderr = Errors.memoryError code (jsTrim stderr)) ∧
    ((strContains (jsToLower stderr) "rate limit"
        || strContains (jsToLower stderr) "too many requests") = false →
     (strContains (jsToLower stderr) "authentication"
        || strContains (jsToLower stderr) "not logged in"
        || strContains (jsToLower stderr) "login") = false →
     (["out of memory", "heap limit", "allocation failed"].any
        (fun pattern => strContains (jsToLower stderr) pattern)) = false →
      classifyNonZeroExit code signal stderr =
        Errors.cliError ("Claude CLI exited with code " ++ jsCodeRender code)
          (.exitInfo code signal (jsTrim stderr))) := by
  refine ⟨?_, ?_, ?_, ?_, ?_⟩
  · simp [closeHandler, bne_iff_ne, hcode]
  · intro h1
    simp [classifyNonZeroExit, h1]
  · intro h1 h2
    simp [classifyNonZeroExit, h1, h2]
  · intro h1 h2 h3
    simp [classifyNonZeroExit, h1, h2, h3]
  · intro h1 h2 h3
    simp [classifyNonZeroExit, h1, h2, h3]

/-- Witness for C6: exit code 1 with stderr "Error: rate limit exceeded"
classifies as `rate_limit`, and "please login" as `upstream_auth`. -/
theorem c6_stderr_classification_witness :
    closeHandler (fun _ => none) false false 0 (some 1) none "" "Error: rate limit exceeded" "m" =
      .error Errors.rateLimit ∧
    classifyNonZeroExit (some 1) none "please login" = Errors.upstreamAuthError := by
  have h1 := c6_stderr_classification (fun _ => none) 0 (some 1) none ""
    "Error: rate limit exceeded" "m" (by decide)
  have h2 := c6_stderr_classification (fun _ => none) 0 (some 1) none ""
    "please login" "m" (by decide)
  exact ⟨by rw [h1.1, h1.2.1 (by decide)], h2.2.2.1 (by decide) (by decide)⟩

/-! ## Claim C7: ownership isolation -/

/-- C7.  `getSession` returns the stored record exactly when the row's
`api_key_hash` equals the digest of the presented credential; a missing row
and a fingerprint mismatch are both reported as the same `null` — the result
type has no "forbidden" outcome at all. -/
theorem c7_ownership_isolation (hash : String → String) (st : SqliteStore)
    (sessionId apiKey : String) :
    (∀ row : SessionRow, rowFind st.rows sessionId = some row →
       row.api_key_hash = hash apiKey →
       getSession hash st sessionId apiKey = some (rowToSession st row)) ∧
    (∀ row : SessionRow, rowFind st.rows sessionId = some row →
       row.api_key_hash ≠ hash apiKey →
       getSession hash st sessionId apiKey = none) ∧
    (rowFind st.rows sessionId = none → getSession hash st sessionId apiKey = none) ∧
    ((getSession hash st sessionId apiKey).isSome = true ↔
       ∃ row : SessionRow, rowFind st.rows sessionId = some row ∧
         row.api_key_hash = hash apiKey) := by
  refine ⟨?_, ?_, ?_, ?_⟩
  · intro row hrf hh
    simp [getSession, hrf, hh]
  · intro row hrf hh
    simp [getSession, hrf, hh]
  · intro hrf
    simp [getSession, hrf]
  · rcases hrf : rowFind st.rows sessionId with _ | row
    · simp [getSession, hrf]
    · by_cases hh : row.api_key_hash = hash apiKey
      · simp [getSession, hrf, hh]
      · simp [getSession, hrf, hh]

/-- A toy digest and store for the C7 witness. -/
def c7Hash : String → String := fun s => s ++ "#"

def c7Row : SessionRow := ⟨"s", "claude-s", "k#", 0, 0⟩

def c7Store : SqliteStore := ⟨[c7Row], []⟩

/-- Witness for C7: the owner sees the session, a different credential gets
`null`. -/
theorem c7_ownership_isolation_witness :
    getSession c7Hash c7Store "s" "k" = some (rowToSession c7Store c7Row) ∧
    getSession c7Hash c7Store "s" "bad" = none :=
  ⟨(c7_ownership_isolation c7Hash c7Store "s" "k").1 c7Row rfl (by decide),
   (c7_ownership_isolation c7Hash c7Store "s" "bad").2.1 c7Row rfl (by decide)⟩

/-! ## Claim C9: argument assembly -/

/-- C9.  The spawned argv is `-p <prompt>`, `--output-format json`
(`stream-json` exactly when streaming), `--dangerously-skip-permissions`,
always `--model` with the requested-or-default model lowercased, then
`--allowedTools <csv>` exactly when the list is non-empty, `--resume <token>`
exactly when a non-empty resume token is present, and `--max-turns <n>`
exactly when `maxTurns` is positive. -/
theorem c9_argument_assembly (opts : ClaudeRunOptions) (config : RunnerConfig) :
    runClaudeArgs opts config =
      ["-p", opts.prompt, "--output-format", if opts.stream then "stream-json" else "json",
       "--dangerously-skip-permissions", "--model",
       jsToLower (jsOrString opts.model config.defaultModel)]
      ++ (match opts.allowedTools with
          | some tools => if tools ≠ [] then ["--allowedTools", String.intercalate "," tools] else []
          | none => [])
      ++ (match opts.resumeSessionId with
          | some sid => if sid ≠ "" then ["--resume", sid] else []
          | none => [])
      ++ (match opts.maxTurns with
          | some n => if 0 < n then ["--max-turns", toString n] else []
          | none => []) ∧
    effectiveModel opts config = jsToLower (jsOrString opts.model config.defaultModel) := by
  refine ⟨?_, rfl⟩
  have htools : (match opts.allowedTools with
      | some tools => if tools.length > 0 then ["--allowedTools", String.intercalate "," tools] else []
      | none => ([] : List String)) =
      (match opts.allowedTools with
      | some tools => if tools ≠ [] then ["--allowedTools", String.intercalate "," tools] else []
      | none => ([] : List String)) := by
    rcases opts.allowedTools with _ | tools
    · rfl
    · by_cases h : tools = []
      · subst h; rfl
      · simp [h, List.length_pos.mpr h]
  have hresume : (match opts.resumeSessionId with
      | some sid => if sid != "" then ["--resume", sid] else []
      | none => ([] : List String)) =
      (match opts.resumeSessionId with
      | some sid => if sid ≠ "" then ["--resume", sid] else []
      | none => ([] : List String)) := by
    rcases opts.resumeSessionId with _ | sid
    · rfl
    · by_cases h : sid = ""
      · subst h; rfl
      · simp [h, bne_iff_ne]
  have hturns : (match opts.maxTurns with
      | some n => if n != 0 && n > 0 then ["--max-turns", toString n] else []
      | none => ([] : List String)) =
      (match opts.maxTurns with
      | some n => if 0 < n then ["--max-turns", toString n] else []
      | none => ([] : List String)) := by
    rcases opts.maxTurns with _ | n
    · rfl
    · by_cases h : 0 < n
      · simp [h, bne_iff_ne, ne_of_gt h]
      · have hn : ¬ n > 0 := h
        simp [h, hn]
  simp only [runClaudeArgs, effectiveModel]
  rw [htools, hresume, hturns]
  simp [List.append_assoc]

/-! ## Claim C4: retry budget -/

/-- An always-timeout attempt stream and zero jitter, for C4's refutation. -/
def c4Run : Nat → Except JsError ClaudeRunResult :=
  fun _ => .error (.api (Errors.timeoutErr 5000))

/-- C4 as stated is false: when every attempt times out, exactly 3 attempts
run but only *two* backoff sleeps happen (base delays 1000 then 2000 ms) —
the claimed third sleep with base 4000 ms never occurs, because the third
attempt rethrows without sleeping. -/
theorem c4_retry_counterexample :
    (submit false false c4Run (fun _ => false) (fun _ => false) (fun _ => 0)).attemptCount = 3 ∧
    (submit false false c4Run (fun _ => false) (fun _ => false) (fun _ => 0)).sleeps = [1000, 2000] ∧
    (submit false false c4Run (fun _ => false) (fun _ => false) (fun _ => 0)).sleeps.length ≠ 3 := by
  refine ⟨by decide, by decide, by decide⟩

/-- A started attempt always counts, absent an abort. -/
theorem retryLoop_count_pos (run : Nat → Except JsError ClaudeRunResult)
    (jitter : Nat → Int) (attempt fuel : Nat) (le : Option JsError) :
    1 ≤ (retryLoop run (fun _ => false) (fun _ => false) jitter attempt (fuel + 1) le).attemptCount := by
  rcases hr : run attempt with e | r
  · simp only [retryLoop]
    rw [hr]
    simp
    split_ifs <;> simp
  · simp only [retryLoop]
    rw [hr]
    simp

/-- C4 amended.  For a non-streaming submission whose every attempt fails
with kind `timeout` and no abort: exactly 3 attempts run, the final error has
kind `timeout`, and exactly two sleeps separate them, with base delays 1000
then 2000 ms, each perturbed by at most ±15%.  A failed first attempt is
followed by a second one iff `isRetryableError` holds of its error, which in
turn holds iff the kind is `timeout` or `rate_limit` or the error is a plain
one whose message mentions `ECONNRESET`. -/
theorem c4_retry_amended :
    (∀ (run : Nat → Except JsError ClaudeRunResult) (jitter : Nat → Int),
       (∀ i, ∃ e : ApiError, run i = .error (.api e) ∧ e.code = .TIMEOUT) →
       |jitter 0| ≤ 150 → |jitter 1| ≤ 300 →
       (submit false false run (fun _ => false) (fun _ => false) jitter).attemptCount = 3 ∧
       (∃ e : ApiError,
         (submit false false run (fun _ => false) (fun _ => false) jitter).result =
           .error (.api e) ∧ e.code = .TIMEOUT) ∧
       (submit false false run (fun _ => false) (fun _ => false) jitter).sleeps =
         [1000 + jitter 0, 2000 + jitter 1] ∧
       (∃ d1 d2 : Int,
         (submit false false run (fun _ => false) (fun _ => false) jitter).sleeps = [d1, d2] ∧
         |d1 - 1000| ≤ 150 ∧ |d2 - 2000| ≤ 300)) ∧
    (∀ (run : Nat → Except JsError ClaudeRunResult) (jitter : Nat → Int) (e : JsError),
       run 0 = .error e →
       (2 ≤ (submit false false run (fun _ => false) (fun _ => false) jitter).attemptCount ↔
         isRetryableError e = true)) ∧
    (∀ e : JsError, isRetryableError e = true ↔
       (match e with
        | .api a => a.code = .TIMEOUT ∨ a.code = .RATE_LIMIT
        | .generic m => strContains m "ECONNRESET" = true)) := by
  refine ⟨?_, ?_, ?_⟩
  · intro run jitter hrun hj0 hj1
    obtain ⟨e0, h0, hc0⟩ := hrun 0
    obtain ⟨e1, h1, hc1⟩ := hrun 1
    obtain ⟨e2, h2, hc2⟩ := hrun 2
    have hloop0 : retryLoop run (fun _ => false) (fun _ => false) jitter 0 3 none =
        ⟨.error (.api e2), 3, [1000 + jitter 0, 2000 + jitter 1]⟩ := by
      simp only [retryLoop]
      rw [h0, h1, h2]
      simp [isRetryableError, hc0, hc1, hc2, RETRY_MAX_ATTEMPTS, retryBaseDelay, RETRY_DELAYS]
    have hs : submit false false run (fun _ => false) (fun _ => false) jitter =
        retryLoop run (fun _ => false) (fun _ => false) jitter 0 3 none := rfl
    rw [hs, hloop0]
    refine ⟨rfl, ⟨e2, rfl, hc2⟩, rfl, ⟨1000 + jitter 0, 2000 + jitter 1, rfl, ?_, ?_⟩⟩
    · simpa using hj0
    · simpa using hj1
  · intro run jitter e he
    have hs : submit false false run (fun _ => false) (fun _ => false) jitter =
        retryLoop run (fun _ => false) (fun _ => false) jitter 0 3 none := rfl
    rw [hs]
    by_cases hr : isRetryableError e = true
    · have hone : 1 ≤ (retryLoop run (fun _ => false) (fun _ => false) jitter 1 2
          (some e)).attemptCount := by
        simpa using retryLoop_count_pos run jitter 1 1 (some e)
      have hcount : (retryLoop run (fun _ => false) (fun _ => false) jitter 0 3 none).attemptCount =
          (retryLoop run (fun _ => false) (fun _ => false) jitter 1 2 (some e)).attemptCount + 1 := by
        rw [retryLoop.eq_def]
        simp [he, hr, RETRY_MAX_ATTEMPTS]
      rw [hcount]
      simp [hr]
      omega
    · have hrf : isRetryableError e = false := by
        rwa [Bool.not_eq_true] at hr
      have hcount : (retryLoop run (fun _ => false) (fun _ => false) jitter 0 3 none).attemptCount = 1 := by
        rw [retryLoop.eq_def]
        simp [he, hrf]
      rw [hcount]
      simp [hrf]
  · intro e
    cases e <;> simp [isRetryableError]

/-- Witness for C4 amended on the always-timeout stream with zero jitter. -/
theorem c4_retry_amended_witness :
    (submit false false c4Run (fun _ => false) (fun _ => false) (fun _ => 0)).attemptCount = 3 ∧
    2 ≤ (submit false false c4Run (fun _ => false) (fun _ => false) (fun _ => 0)).attemptCount := by
  have h := c4_retry_amended.1 c4Run (fun _ => 0)
    (fun i => ⟨Errors.timeoutErr 5000, rfl, rfl⟩) (by decide) (by decide)
  have h2 := (c4_retry_amended.2.1 c4Run (fun _ => 0) (.api (Errors.timeoutErr 5000)) rfl).mpr
    (by decide)
  exact ⟨h.1, h2⟩

/-! ## Claim C8 (amended) and the sweep lemmas -/

theorem mapFind_filter_not_mem {β : Type} (m : List (String × β)) (ids : List String) (k : String)
    (hk : k ∈ ids) : mapFind (m.filter (fun q => ¬ q.1 ∈ ids)) k = none := by
  induction m with
  | nil => rfl
  | cons p rest ih =>
    obtain ⟨pk, pv⟩ := p
    simp only [decide_not] at ih ⊢
    by_cases hp : pk ∈ ids
    · simp [List.filter_cons, hp, ih]
    · have hne : pk ≠ k := fun hkk => hp (hkk ▸ hk)
      simp [List.filter_cons, hp, mapFind, hne, ih]

/-- C8 amended.  One sweep removes every expired session in both revisions;
the in-memory revision also purges the lock entry of every expired session,
but the SQLite revision's sweep leaves `sessionQueues` entirely untouched. -/
theorem c8_ttl_amended :
    (∀ (st : SqliteStore) (now ttl : Int) (r : SessionRow),
       r ∈ (cleanupExpiredSessionsSqlite st now ttl).rows → ¬ r.last_accessed_at < now - ttl) ∧
    (∀ (st : SqliteStore) (now ttl : Int),
       (cleanupExpiredSessionsSqlite st now ttl).sessionQueues = st.sessionQueues) ∧
    (∀ (st : MemStore) (now ttl : Int) (p : String × MemSession),
       p ∈ (cleanupExpiredSessionsMem st now ttl).sessions → ¬ now - p.2.lastAccessedAt > ttl) ∧
    (∀ (st : MemStore) (now ttl : Int) (sessionId : String) (s : MemSession),
       mapFind st.sessions sessionId = some s → now - s.lastAccessedAt > ttl →
       mapFind (cleanupExpiredSessionsMem st now ttl).sessionQueues sessionId = none) := by
  refine ⟨?_, ?_, ?_, ?_⟩
  · intro st now ttl r hr
    simp only [cleanupExpiredSessionsSqlite, List.mem_filter, decide_not] at hr
    simpa using hr.2
  · intro st now ttl
    rfl
  · intro st now ttl p hp
    simp only [cleanupExpiredSessionsMem, List.mem_filter, decide_not] at hp
    simpa using hp.2
  · intro st now ttl sessionId s hfind hexp
    have hmem : (sessionId, s) ∈ st.sessions := mapFind_some_mem _ _ _ hfind
    have hids : sessionId ∈
        (st.sessions.filter (fun p => now - p.2.lastAccessedAt > ttl)).map (fun p => p.1) :=
      List.mem_map.mpr ⟨(sessionId, s), List.mem_filter.mpr ⟨hmem, by simpa using hexp⟩, rfl⟩
    simpa only [cleanupExpiredSessionsMem] using
      mapFind_filter_not_mem st.sessionQueues _ sessionId hids

/-- Witness for C8 amended: a surviving unexpired row, and the purged lock
entry of an expired in-memory session. -/
theorem c8_ttl_amended_witness :
    ¬ ((⟨"s", "claude-s", "h", 0, 0⟩ : SessionRow).last_accessed_at < 2000 - 10000) ∧
    mapFind (cleanupExpiredSessionsMem ⟨[("s", ⟨"s", "claude-s", "h", 0, 0, false⟩)],
      [("s", [4])]⟩ 2000 1000).sessionQueues "s" = none :=
  ⟨c8_ttl_amended.1 c8Store 2000 10000 ⟨"s", "claude-s", "h", 0, 0⟩ (by decide),
   c8_ttl_amended.2.2.2 ⟨[("s", ⟨"s", "claude-s", "h", 0, 0, false⟩)], [("s", [4])]⟩
     2000 1000 "s" ⟨"s", "claude-s", "h", 0, 0, false⟩ rfl (by decide)⟩

/-! ## Supporting result: the in-memory revision's lock is a real mutex

The in-memory revision (the `locked`-flag variant of `acquireLock` and
`releaseLock`) does satisfy the specification's mutual-exclusion invariant,
in contrast to the SQLite revision refuted above. -/

/-- Lock-system invariant: at most one holder per session, and none when the
session is unlocked or absent. -/
def memLockInv (sys : MemLockSystem) : Prop :=
  ∀ sessionId : String, (sys.holdersOf sessionId).length ≤ 1 ∧
    (sys.lockedOf sessionId = false → sys.holdersOf sessionId = [])

theorem memAcquire_inv (sys : MemLockSystem) (c : Caller) (sessionId : String)
    (h : memLockInv sys) : memLockInv (memAcquire sys c sessionId).1 := by
  rcases hfind : mapFind sys.store.sessions sessionId with _ | s
  · simpa [memAcquire, hfind] using h
  · by_cases hl : s.locked
    · simp only [memAcquire, hfind, hl, Bool.not_true, Bool.false_eq_true, if_false]
      intro x
      exact h x
    · have hlf : s.locked = false := by rwa [Bool.not_eq_true] at hl
      have hempty : sys.holdersOf sessionId = [] :=
        (h sessionId).2 (by simp [MemLockSystem.lockedOf, hfind, hlf])
      simp only [memAcquire, hfind, hlf, Bool.not_false, if_true]
      intro x
      by_cases hx : x = sessionId
      · subst hx
        simp only [MemLockSystem.holdersOf] at hempty
        constructor
        · simp [MemLockSystem.holdersOf, mapFind_mapSet_same, hempty]
        · intro hlock
          exfalso
          simp [MemLockSystem.lockedOf, mapFind_mapSet_same] at hlock
      · have h1 : MemLockSystem.holdersOf
            ⟨⟨mapSet sys.store.sessions sessionId { s with locked := true }, sys.store.sessionQueues⟩,
             mapSet sys.holders sessionId (sys.holdersOf sessionId ++ [c])⟩ x = sys.holdersOf x := by
          simp [MemLockSystem.holdersOf, mapFind_mapSet_other _ _ _ _ hx]
        have h2 : MemLockSystem.lockedOf
            ⟨⟨mapSet sys.store.sessions sessionId { s with locked := true }, sys.store.sessionQueues⟩,
             mapSet sys.holders sessionId (sys.holdersOf sessionId ++ [c])⟩ x = sys.lockedOf x := by
          simp [MemLockSystem.lockedOf, mapFind_mapSet_other _ _ _ _ hx]
        rw [h1, h2]
        exact h x

theorem memRelease_inv (sys : MemLockSystem) (c : Caller) (sessionId : String)
    (h : memLockInv sys) : memLockInv (memRelease sys c sessionId) := by
  by_cases hc : c ∈ sys.holdersOf sessionId
  · have hsingle : sys.holdersOf sessionId = [c] := length_le_one_mem_eq (h sessionId).1 hc
    have herase : (sys.holdersOf sessionId).erase c = [] := by
      rw [hsingle]
      simp
    have hlocked : sys.lockedOf sessionId = true := by
      by_contra hf
      have hlf : sys.lockedOf sessionId = false := by rwa [Bool.not_eq_true] at hf
      have := (h sessionId).2 hlf
      rw [hsingle] at this
      exact List.cons_ne_nil _ _ this
    rcases hfind : mapFind sys.store.sessions sessionId with _ | s
    · exfalso
      simp [MemLockSystem.lockedOf, hfind] at hlocked
    · rcases hq : mapFind sys.store.sessionQueues sessionId with _ | q
      · simp only [memRelease, hc, if_pos, hfind, hq, herase]
        intro x
        by_cases hx : x = sessionId
        · subst hx
          refine ⟨?_, fun _ => ?_⟩ <;>
            simp [MemLockSystem.holdersOf, mapFind_mapSet_same]
        · constructor
          · have := (h x).1
            simpa [MemLockSystem.holdersOf, mapFind_mapSet_other _ _ _ _ hx] using this
          · intro hlock
            have hlock' : sys.lockedOf x = false := by
              simpa [MemLockSystem.lockedOf, mapFind_mapSet_other _ _ _ _ hx] using hlock
            have := (h x).2 hlock'
            simpa [MemLockSystem.holdersOf, mapFind_mapSet_other _ _ _ _ hx] using this
      · rcases q with _ | ⟨next, restq⟩
        · simp only [memRelease, hc, if_pos, hfind, hq, herase]
          intro x
          by_cases hx : x = sessionId
          · subst hx
            refine ⟨?_, fun _ => ?_⟩ <;>
              simp [MemLockSystem.holdersOf, mapFind_mapSet_same]
          · constructor
            · have := (h x).1
              simpa [MemLockSystem.holdersOf, mapFind_mapSet_other _ _ _ _ hx] using this
            · intro hlock
              have hlock' : sys.lockedOf x = false := by
                simpa [MemLockSystem.lockedOf, mapFind_mapSet_other _ _ _ _ hx] using hlock
              have := (h x).2 hlock'
              simpa [MemLockSystem.holdersOf, mapFind_mapSet_other _ _ _ _ hx] using this
        · simp only [memRelease, hc, if_pos, hfind, hq, herase]
          intro x
          by_cases hx : x = sessionId
          · subst hx
            constructor
            · simp [MemLockSystem.holdersOf, mapFind_mapSet_same]
            · intro hlock
              exfalso
              have : sys.lockedOf x = false := by
                simpa [MemLockSystem.lockedOf, hfind] using hlock
              rw [this] at hlocked
              cases hlocked
          · constructor
            · have := (h x).1
              simpa [MemLockSystem.holdersOf, mapFind_mapSet_other _ _ _ _ hx] using this
            · intro hlock
              have hlock' : sys.lockedOf x = false := by
                simpa [MemLockSystem.lockedOf, mapFind_mapSet_other _ _ _ _ hx] using hlock
              have := (h x).2 hlock'
              simpa [MemLockSystem.holdersOf, mapFind_mapSet_other _ _ _ _ hx] using this
  · simp only [memRelease, hc, if_neg, not_false_iff]
    exact h

/-- In the in-memory revision, any sequence of acquire/release events from an
invariant state keeps at most one holder per session ID. -/
theorem memLockRun_mutual_exclusion (init : MemLockSystem) (hinit : memLockInv init)
    (events : List LockEvent) (sessionId : String) :
    ((memLockRun init events).holdersOf sessionId).length ≤ 1 := by
  suffices hsuff : memLockInv (memLockRun init events) from (hsuff sessionId).1
  induction events generalizing init with
  | nil => exact hinit
  | cons e rest ih =>
    rcases e with ⟨c, sid⟩ | ⟨c, sid⟩
    · exact ih _ (memAcquire_inv init c sid hinit)
    · exact ih _ (memRelease_inv init c sid hinit)

end Proxy
